import Mathlib

/-!
Shallow embedding of `selfdrive/controls/lib/longitudinal_planner.py`
(openpilot 0.8.5 fork): the longitudinal planner's per-cycle decision and
fusion logic.  Machine floats are modelled as exact rationals; the external
collaborators (the two lead MPC solvers, the model MPC solver, the FCW
checker, the speed smoother, the parameter store and the square-root
library routine) are treated as oracles whose per-cycle outputs are inputs
of the embedded transition function, exactly as the spec's interface
sections prescribe.
-/

namespace LongitudinalPlanner

/-- `LON_MPC_STEP = 0.2` — first mpc step. -/
def LON_MPC_STEP : ℚ := 1/5

/-- `AWARENESS_DECEL = -0.2`. -/
def AWARENESS_DECEL : ℚ := -(1/5)

/-- `_A_CRUISE_MIN_V_FOLLOWING = [-2.7, -2.4, -2.0, -1.4, -0.5]`. -/
def A_CRUISE_MIN_V_FOLLOWING : List ℚ := [-(27/10), -(24/10), -2, -(14/10), -(1/2)]

/-- `_A_CRUISE_MIN_V = [-1.0, -.8, -.67, -.5, -.30]`. -/
def A_CRUISE_MIN_V : List ℚ := [-1, -(4/5), -(67/100), -(1/2), -(3/10)]

/-- `_A_CRUISE_MIN_BP = [0., 5., 10., 20., 40.]`. -/
def A_CRUISE_MIN_BP : List ℚ := [0, 5, 10, 20, 40]

/-- `_A_CRUISE_MAX_V = [1.2, 1.2, 0.65, .4]`. -/
def A_CRUISE_MAX_V : List ℚ := [6/5, 6/5, 65/100, 2/5]

/-- `_A_CRUISE_MAX_V_FOLLOWING = [1.6, 1.6, 0.65, .4]`. -/
def A_CRUISE_MAX_V_FOLLOWING : List ℚ := [8/5, 8/5, 65/100, 2/5]

/-- `_A_CRUISE_MAX_BP = [0., 6.4, 22.5, 40.]`. -/
def A_CRUISE_MAX_BP : List ℚ := [0, 32/5, 45/2, 40]

/-- `_A_TOTAL_MAX_V = [1.7, 3.2]`. -/
def A_TOTAL_MAX_V : List ℚ := [17/10, 16/5]

/-- `_A_TOTAL_MAX_BP = [20., 40.]`. -/
def A_TOTAL_MAX_BP : List ℚ := [20, 40]

/-- Modelled from the spec: `V_CRUISE_MAX` comes from
`drive_helpers`, which is outside `src/`; the spec only says the requested
speed is "capped at a system maximum".  Its concrete value (144 kph in
upstream openpilot) is irrelevant to every claim below. -/
def V_CRUISE_MAX : ℚ := 144

/-- Modelled from the spec: `CV.KPH_TO_MS` from `selfdrive.config`
(outside `src/`); unit normalisation kph → m/s. -/
def KPH_TO_MS : ℚ := 5/18

/-- Modelled from the spec: `CV.MS_TO_KPH` from `selfdrive.config`
(outside `src/`). -/
def MS_TO_KPH : ℚ := 18/5

/-- Modelled from the spec: `CV.DEG_TO_RAD` from `selfdrive.config`
(outside `src/`): the degree-to-radian factor `pi / 180` at machine
precision.  Its concrete value is irrelevant to every claim below. -/
def DEG_TO_RAD : ℚ := 3141592653589793 / (1000000000000000 * 180)

/-- Modelled from the spec: `common.numpy_fast.interp` (outside `src/`) —
piecewise-linear interpolation over an increasing breakpoint table,
clamping to the table ends out of range (spec section 4.1). -/
def interp (x : ℚ) : List ℚ → List ℚ → ℚ
  | [], _ => 0
  | _ :: _, [] => 0
  | [_], f0 :: _ => f0
  | x0 :: x1 :: xr, f0 :: f1 :: fr =>
      if x ≤ x0 then f0
      else if x ≤ x1 then f0 + (x - x0) * (f1 - f0) / (x1 - x0)
      else interp x (x1 :: xr) (f1 :: fr)
  | _ :: _ :: _, [_] => 0

/-- `calc_cruise_accel_limits(v_ego, following)`: the pair
`(a_cruise_min, a_cruise_max)` from the lookup tables. -/
def calc_cruise_accel_limits (v_ego : ℚ) (following : Bool) : ℚ × ℚ :=
  if following then
    (interp v_ego A_CRUISE_MIN_BP A_CRUISE_MIN_V_FOLLOWING,
     interp v_ego A_CRUISE_MAX_BP A_CRUISE_MAX_V_FOLLOWING)
  else
    (interp v_ego A_CRUISE_MIN_BP A_CRUISE_MIN_V,
     interp v_ego A_CRUISE_MAX_BP A_CRUISE_MAX_V)

/-- Static per-vehicle configuration (`CP`), spec section 6. -/
structure CarParams where
  sccBus : ℤ
  steerRatio : ℚ
  wheelbase : ℚ
  minSpeedCan : ℚ
  startAccel : ℚ
  radarTimeStep : ℚ

/-- `limit_accel_in_turns(v_ego, angle_steers, a_target, CP)`.
`sqrtFn` stands for the external library routine `math.sqrt`; the claims
that depend on its behaviour take the relevant square-root facts as
hypotheses at the points where it is applied. -/
def limit_accel_in_turns (sqrtFn : ℚ → ℚ) (v_ego angle_steers : ℚ)
    (a_target : ℚ × ℚ) (CP : CarParams) : ℚ × ℚ :=
  let a_total_max := interp v_ego A_TOTAL_MAX_BP A_TOTAL_MAX_V
  let a_y := v_ego ^ 2 * angle_steers * DEG_TO_RAD / (CP.steerRatio * CP.wheelbase)
  let a_x_allowed := sqrtFn (max (a_total_max ^ 2 - a_y ^ 2) 0)
  (a_target.1, min a_target.2 a_x_allowed)

/-- `ModelMpcHelper.model_t`: the 33 model prediction timestamps
`i ** 2 / 102.4`. -/
def model_t : List ℚ := (List.range 33).map (fun i => (i : ℚ) ^ 2 / (512/5))

/-- First index in `[0, n)` minimising `key` — the head of Python's stable
`sorted(range(n), key=key)`. -/
def argminIdx (key : ℕ → ℚ) (n : ℕ) : ℕ :=
  (List.range n).foldl (fun b i => if key i < key b then i else b) 0

/-- `ModelMpcHelper.mpc_t = list(range(10))`. -/
def mpc_t : List ℕ := List.range 10

/-- `ModelMpcHelper.model_t_idx`: for each mpc timestep `idx`, the index of
the dense timestamp closest to `idx` (ties to the earliest index, as with
Python's stable sort). -/
def model_t_idx : List ℕ :=
  mpc_t.map (fun idx => argminIdx (fun t => |(idx : ℚ) - model_t.getD t 0|) 33)

/-- `ModelMpcHelper.convert_data(sm)`, as the pure function of the model
trajectory oracle: `alive` is `sm.alive['modelV2']`, `posX`/`velX` are
`modelV2.position.x` / `modelV2.velocity.x` (33-sample arrays by the input
contract of spec section 6; `List.getD` stands for Python list indexing,
which never goes out of range on contract-conforming input).  Returns
`(distances, speeds, accelerations)`. -/
def convert_data (alive : Bool) (posX velX : List ℚ) :
    List ℚ × List ℚ × List ℚ :=
  if !alive || posX.length == 0 then ([], [], [])
  else
    let speeds := model_t_idx.map (fun t => velX.getD t 0)
    let distances := model_t_idx.map (fun t => posX.getD t 0)
    let accels := mpc_t.filterMap (fun t =>
      if 0 < t ∧ t < 9 then
        some ((speeds.getD (t + 1) 0 - speeds.getD (t - 1) 0) / 2)
      else none)
    let accels := accels ++
      [accels.getD (accels.length - 1) 0 -
        (accels.getD (accels.length - 2) 0 - accels.getD (accels.length - 1) 0)]
    let accels :=
      (accels.getD 0 0 - (accels.getD 1 0 - accels.getD 0 0)) :: accels
    (distances, speeds, accels)

/-- `LongCtrlState` (cereal enum, spec section 6: engagement/control-mode
enum {pid-following, starting, stopping, other}). -/
inductive LongCtrlState where
  | off
  | pid
  | stopping
  | starting
deriving DecidableEq

/-- The plan-source label: the code's strings
`'cruise' / 'mpc1' / 'mpc2' / 'model'` as an enumeration. -/
inductive PlanSource where
  | cruise
  | mpc1
  | mpc2
  | model
deriving DecidableEq

/-- One lead-vehicle record (`radarState.leadOne` / `leadTwo`). -/
structure LeadState where
  status : Bool
  dRel : ℚ
  yRel : ℚ
  vRel : ℚ
  vLead : ℚ
  vLeadK : ℚ
  aLeadK : ℚ
  vLat : ℚ
  fcw : Bool

/-- Per-cycle outputs of one external `LongitudinalMpc` solver instance, as
read by the planner after the solver's own `update` call of the same cycle
(spec: black box producing {v, a, v_future, lead-status}). -/
structure MpcOut where
  v_mpc : ℚ
  a_mpc : ℚ
  v_mpc_future : ℚ
  prev_lead_status : Bool
  new_lead : Bool

/-- Per-cycle outputs of the external `LongitudinalMpcModel` solver
(spec: black box producing {v, a, v_future, validity}). -/
structure ModelMpcOut where
  valid : Bool
  v_mpc : ℚ
  a_mpc : ℚ
  v_mpc_future : ℚ

/-- One cycle's input snapshot: the fields of `sm` that `Planner.update`
reads, plus the per-cycle outputs of the external oracles (mpc solvers,
FCW checker, parameter store, speed-limit-camera log scraper). -/
structure Inputs where
  vEgo : ℚ
  aEgo : ℚ
  brakePressed : Bool
  gasPressed : Bool
  steeringAngleDeg : ℚ
  leftBlinker : Bool
  rightBlinker : Bool
  longControlState : LongCtrlState
  vCruiseCS : ℚ
  vSetDis : ℚ
  forceDecel : Bool
  lead1 : LeadState
  lead2 : LeadState
  mpc1 : MpcOut
  mpc2 : MpcOut
  mpcModel : ModelMpcOut
  modelLongEnabled : Bool
  opkrMapEnable : Bool
  limitCamSpeed : Option ℤ
  limitCamDist : Option ℤ
  fcwRaw : Bool

/-- The speed-limit-camera bookkeeping fields of the planner
(`target_speed_map*`), grouped; only the map-enabled block and the
publish-side camera logic touch them. -/
structure MapState where
  target_speed_map : ℚ
  target_speed_map_counter : ℤ
  target_speed_map_counter_check : Bool
  target_speed_map_counter1 : ℤ
  target_speed_map_counter2 : ℤ
  target_speed_map_counter3 : ℤ
  target_speed_map_dist : ℚ
  target_speed_map_block : Bool
  target_speed_map_sign : Bool

/-- The carried planner state (`Planner.__init__` fields that later cycles
read or write).  External sub-objects (the mpc solvers, the FCW checker,
the parameter store) live outside this state as oracles. -/
structure PlannerState where
  v_acc_start : ℚ
  a_acc_start : ℚ
  v_acc_next : ℚ
  a_acc_next : ℚ
  v_acc : ℚ
  v_acc_future : ℚ
  a_acc : ℚ
  v_cruise : ℚ
  a_cruise : ℚ
  longitudinalPlanSource : PlanSource
  fcw : Bool
  first_loop : Bool
  msm : MapState
  tartget_speed_offset : ℤ
  vego : ℚ

/-- `Planner.__init__`: the initial planner state; `offset` is the value
the parameter store returns for `OpkrSpeedLimitOffset`. -/
def initState (offset : ℤ) : PlannerState where
  v_acc_start := 0
  a_acc_start := 0
  v_acc_next := 0
  a_acc_next := 0
  v_acc := 0
  v_acc_future := 0
  a_acc := 0
  v_cruise := 0
  a_cruise := 0
  longitudinalPlanSource := .cruise
  fcw := false
  first_loop := true
  msm := ⟨0, 0, false, 0, 0, 0, 0, false, false⟩
  tartget_speed_offset := offset
  vego := 0

/-- The `OpkrMapEnable` block of `Planner.update` (lines 190-234), acting
on the map sub-state; `mapspeed`/`mapspeeddist` are the parsed contents
the parameter store returns for `LimitSetSpeedCamera`(`Dist`), `none`
standing for Python `None`.  The `os.system` log-scraper calls are
external side effects with no planner-state footprint. -/
def mapUpdate (m : MapState) (mapspeed mapspeeddist : Option ℤ) : MapState :=
  let m := { m with target_speed_map_counter := m.target_speed_map_counter + 1 }
  if m.target_speed_map_counter ≥ (50 : ℤ) + m.target_speed_map_counter1 ∧
      m.target_speed_map_counter_check = false then
    let m := { m with target_speed_map_counter_check := true,
                      target_speed_map_counter3 := m.target_speed_map_counter3 + 1 }
    if m.target_speed_map_counter3 > (2 : ℤ) then { m with target_speed_map_counter3 := 0 }
    else m
  else if m.target_speed_map_counter ≥ (75 : ℤ) + m.target_speed_map_counter1 then
    let m := { m with target_speed_map_counter1 := 0,
                      target_speed_map_counter := 0,
                      target_speed_map_counter_check := false }
    match mapspeed, mapspeeddist with
    | some ms, some md =>
        if ms > (29 : ℤ) then
          let m := { m with target_speed_map := (ms : ℚ),
                            target_speed_map_dist := (md : ℚ) }
          let m := if m.target_speed_map_dist > (1001 : ℚ) then
                     { m with target_speed_map_block := true }
                   else m
          { m with target_speed_map_counter1 := 80 }
        else
          { m with target_speed_map := 0, target_speed_map_dist := 0,
                   target_speed_map_block := false }
    | none, none =>
        if m.target_speed_map_counter2 < (2 : ℤ) then
          { m with target_speed_map_counter2 := m.target_speed_map_counter2 + 1,
                   target_speed_map_counter := 51,
                   target_speed_map := 0,
                   target_speed_map_dist := 0,
                   target_speed_map_counter_check := true,
                   target_speed_map_block := false,
                   target_speed_map_sign := false }
        else
          { m with target_speed_map_counter := 49,
                   target_speed_map_counter2 := 0,
                   target_speed_map := 0,
                   target_speed_map_dist := 0,
                   target_speed_map_counter_check := false,
                   target_speed_map_block := false,
                   target_speed_map_sign := false }
    | _, _ =>
        { m with target_speed_map_counter := 49,
                 target_speed_map_counter2 := 0,
                 target_speed_map := 0,
                 target_speed_map_dist := 0,
                 target_speed_map_counter_check := false,
                 target_speed_map_block := false,
                 target_speed_map_sign := false }
  else m

/-- `min(solutions, key=solutions.get)` over the insertion-ordered
candidate association list: the fold keeps the earliest entry attaining
the minimum value, as Python's `min` does. -/
def minBy (hd : PlanSource × ℚ) (tl : List (PlanSource × ℚ)) : PlanSource × ℚ :=
  tl.foldl (fun b x => if x.2 < b.2 then x else b) hd

/-- Python `min` over a nonempty list of values. -/
def listMin : List ℚ → ℚ
  | [] => 0
  | x :: xs => xs.foldl min x

/-- The conditional entries of the `solutions` dict of `choose_solution`
beyond the always-present cruise head, in insertion order: `mpc1` when the
first lead solver reports a previous-cycle lead, `mpc2` likewise, `model`
when the model solver is valid and model planning is enabled. -/
def solutionsTail (inp : Inputs) (model_enabled : Bool) : List (PlanSource × ℚ) :=
  (if inp.mpc1.prev_lead_status then [(.mpc1, inp.mpc1.v_mpc)] else []) ++
  (if inp.mpc2.prev_lead_status then [(.mpc2, inp.mpc2.v_mpc)] else []) ++
  (if inp.mpcModel.valid && model_enabled then [(.model, inp.mpcModel.v_mpc)] else [])

/-- `Planner.choose_solution(v_cruise_setpoint, enabled, model_enabled)`.
The mpc oracle outputs are read from the cycle's input snapshot; the
cruise candidate and the previous arbitration result live in the planner
state. -/
def choose_solution (s : PlannerState) (inp : Inputs)
    (v_cruise_setpoint : ℚ) (enabled model_enabled : Bool) : PlannerState :=
  let possible_futures : List ℚ :=
    [inp.mpc1.v_mpc_future, inp.mpc2.v_mpc_future, v_cruise_setpoint] ++
      (if enabled && (inp.mpcModel.valid && model_enabled) then
        [inp.mpcModel.v_mpc_future]
      else [])
  let s :=
    if enabled then
      let slowest := (minBy (.cruise, s.v_cruise) (solutionsTail inp model_enabled)).1
      let s := { s with longitudinalPlanSource := slowest }
      if slowest = .mpc1 then
        { s with v_acc := inp.mpc1.v_mpc, a_acc := inp.mpc1.a_mpc }
      else if slowest = .mpc2 then
        { s with v_acc := inp.mpc2.v_mpc, a_acc := inp.mpc2.a_mpc }
      else if slowest = .cruise then
        { s with v_acc := s.v_cruise, a_acc := s.a_cruise }
      else if slowest = .model then
        { s with v_acc := inp.mpcModel.v_mpc, a_acc := inp.mpcModel.a_mpc }
      else s
    else s
  { s with v_acc_future := listMin possible_futures }

/-- The external `speed_smoother` primitive (outside `src/`), as an oracle:
arguments in call order `(v, a, v_target, a_max, a_min, j_max, j_min, ts)`,
result `(v_cruise, a_cruise)`. -/
def SpeedSmoother : Type := ℚ → ℚ → ℚ → ℚ → ℚ → ℚ → ℚ → ℚ → ℚ × ℚ

/-- The engagement condition of line 183:
`(long_control_state == pid) or (long_control_state == stopping)`. -/
def enabledOf (inp : Inputs) : Bool :=
  decide (inp.longControlState = .pid) || decide (inp.longControlState = .stopping)

/-- `Planner.update(sm, CP)`: one planner cycle as a state transition.
`smoother` is the external `speed_smoother` oracle and `sqrtFn` the
external `math.sqrt` routine; the mpc solvers' own `set_cur_state` /
`update` calls mutate only external state, and the values the planner
reads back from them are the `inp.mpc1/mpc2/mpcModel` oracle fields. -/
def update (smoother : SpeedSmoother) (sqrtFn : ℚ → ℚ)
    (s : PlannerState) (CP : CarParams) (inp : Inputs) : PlannerState :=
  let v_ego := inp.vEgo
  let v_cruise_kph := if CP.sccBus = 2 then inp.vSetDis else inp.vCruiseCS
  let v_cruise_kph := min v_cruise_kph V_CRUISE_MAX
  let v_cruise_setpoint := v_cruise_kph * KPH_TO_MS
  let enabled := enabledOf inp
  let following := inp.lead1.status && decide (inp.lead1.dRel < 45) &&
    decide (inp.lead1.vLeadK > v_ego) && decide (inp.lead1.aLeadK > 0)
  let s := { s with vego := v_ego,
                    v_acc_start := s.v_acc_next,
                    a_acc_start := s.a_acc_next }
  let s := { s with msm :=
    if inp.opkrMapEnable then mapUpdate s.msm inp.limitCamSpeed inp.limitCamDist
    else s.msm }
  let s :=
    if enabled && !s.first_loop && !inp.brakePressed && !inp.gasPressed then
      let accel_limits := calc_cruise_accel_limits v_ego following
      let jerk_limits := (min (-(1/10) : ℚ) accel_limits.1, max (1/10 : ℚ) accel_limits.2)
      let accel_limits_turns :=
        limit_accel_in_turns sqrtFn v_ego inp.steeringAngleDeg accel_limits CP
      let accel_limits_turns :=
        if inp.forceDecel && false then
          (min accel_limits_turns.1 (min accel_limits_turns.2 AWARENESS_DECEL),
           min accel_limits_turns.2 AWARENESS_DECEL)
        else accel_limits_turns
      let va := smoother s.v_acc_start s.a_acc_start v_cruise_setpoint
        accel_limits_turns.2 accel_limits_turns.1 jerk_limits.2 jerk_limits.1
        LON_MPC_STEP
      { s with v_cruise := max va.1 0, a_cruise := va.2 }
    else
      let starting := decide (inp.longControlState = .starting)
      let a_ego := min inp.aEgo 0
      let reset_speed := if starting then CP.minSpeedCan else v_ego
      let reset_accel := if starting then CP.startAccel else a_ego
      { s with v_acc := reset_speed, a_acc := reset_accel,
               v_acc_start := reset_speed, a_acc_start := reset_accel,
               v_cruise := reset_speed, a_cruise := reset_accel }
  let s := choose_solution s inp v_cruise_setpoint enabled inp.modelLongEnabled
  let s := { s with fcw := inp.fcwRaw && !inp.brakePressed }
  let a_acc_sol := s.a_acc_start + (CP.radarTimeStep / LON_MPC_STEP) * (s.a_acc - s.a_acc_start)
  let v_acc_sol := s.v_acc_start + CP.radarTimeStep * (a_acc_sol + s.a_acc_start) / 2
  { s with v_acc_next := v_acc_sol, a_acc_next := a_acc_sol, first_loop := false }

/-- The deterministic fields of the published `longitudinalPlan` message
(spec section 6 output; the transport fields — validity, mono times,
wall-clock processing delay — are external). -/
structure PlanOutput where
  vCruise : ℚ
  aCruise : ℚ
  vStart : ℚ
  aStart : ℚ
  vTarget : ℚ
  aTarget : ℚ
  vTargetFuture : ℚ
  hasLead : Bool
  longitudinalPlanSource : PlanSource
  fcw : Bool
  dRel1 : ℚ
  yRel1 : ℚ
  vRel1 : ℚ
  dRel2 : ℚ
  yRel2 : ℚ
  vRel2 : ℚ
  status2 : Bool
  targetSpeedCamera : ℚ
  targetSpeedCameraDist : ℚ

/-- `Planner.publish(sm, pm)`: the message fields as a function of the
planner state, plus the state mutation of `target_speed_map_sign`.
`mpc1PrevLeadStatus` is the lead-status flag of the external first mpc
solver that `hasLead` passes through. -/
def publish (s : PlannerState) (lead1 lead2 : LeadState)
    (mpc1PrevLeadStatus : Bool) : PlanOutput × PlannerState :=
  let cam_distance_calc := interp (s.vego * MS_TO_KPH) [30, 60, 100, 160] [15/4, 11/2, 6, 7]
  let consider_speed := interp (s.vego * MS_TO_KPH - s.msm.target_speed_map) [10, 30] [1, 13/10]
  let thresh := cam_distance_calc * consider_speed * s.vego * MS_TO_KPH
  let cam :=
    if s.msm.target_speed_map > 29 ∧ s.msm.target_speed_map_dist < thresh then
      ((s.msm.target_speed_map, s.msm.target_speed_map_dist), true)
    else if s.msm.target_speed_map > 29 ∧ s.msm.target_speed_map_dist ≥ thresh ∧
        s.msm.target_speed_map_block then
      ((s.msm.target_speed_map, s.msm.target_speed_map_dist), true)
    else if s.msm.target_speed_map > 29 ∧ s.msm.target_speed_map_sign then
      ((s.msm.target_speed_map, s.msm.target_speed_map_dist), s.msm.target_speed_map_sign)
    else
      ((0, 0), s.msm.target_speed_map_sign)
  ({ vCruise := s.v_cruise
     aCruise := s.a_cruise
     vStart := s.v_acc_start
     aStart := s.a_acc_start
     vTarget := s.v_acc
     aTarget := s.a_acc
     vTargetFuture := s.v_acc_future
     hasLead := mpc1PrevLeadStatus
     longitudinalPlanSource := s.longitudinalPlanSource
     fcw := s.fcw
     dRel1 := lead1.dRel
     yRel1 := lead1.yRel
     vRel1 := lead1.vRel
     dRel2 := lead2.dRel
     yRel2 := lead2.yRel
     vRel2 := lead2.vRel
     status2 := lead2.status
     targetSpeedCamera := cam.1.1
     targetSpeedCameraDist := cam.1.2 },
   { s with msm := { s.msm with target_speed_map_sign := cam.2 } })

/-- Candidate eligibility per cycle, as the claims state it: cruise always,
each lead solver via its lead-status flag, the model solver via its
validity flag together with the `ModelLongEnabled` configuration flag. -/
def eligible (inp : Inputs) (model_enabled : Bool) : PlanSource → Bool
  | .cruise => true
  | .mpc1 => inp.mpc1.prev_lead_status
  | .mpc2 => inp.mpc2.prev_lead_status
  | .model => inp.mpcModel.valid && model_enabled

/-- Each candidate's current target speed. -/
def candV (s : PlannerState) (inp : Inputs) : PlanSource → ℚ
  | .cruise => s.v_cruise
  | .mpc1 => inp.mpc1.v_mpc
  | .mpc2 => inp.mpc2.v_mpc
  | .model => inp.mpcModel.v_mpc

/-- Each candidate's current target acceleration. -/
def candA (s : PlannerState) (inp : Inputs) : PlanSource → ℚ
  | .cruise => s.a_cruise
  | .mpc1 => inp.mpc1.a_mpc
  | .mpc2 => inp.mpc2.a_mpc
  | .model => inp.mpcModel.a_mpc

/-- The fixed tie-break priority order {cruise, lead1, lead2, model}: the
candidate insertion order of `choose_solution`. -/
def prio : PlanSource → ℕ
  | .cruise => 0
  | .mpc1 => 1
  | .mpc2 => 2
  | .model => 3

section Fixtures

/-- An absent lead record. -/
def cLead : LeadState := ⟨false, 0, 0, 0, 0, 0, 0, 0, false⟩

/-- A lead mpc oracle with no tracked lead. -/
def cMpcOff : MpcOut := ⟨0, 0, 0, false, false⟩

/-- An invalid model mpc oracle. -/
def cModelOff : ModelMpcOut := ⟨false, 0, 0, 0⟩

/-- A concrete vehicle configuration (steer ratio 13, wheelbase 2.7 m,
`minSpeedCan` 0.3, `startAccel` 0.8, radar tick 0.05 s). -/
def cCP : CarParams := ⟨0, 13, 27/10, 3/10, 4/5, 1/20⟩

/-- A concrete speed-smoother oracle. -/
def cSmoother : SpeedSmoother := fun v a _ _ _ _ _ _ => (v, a)

/-- A concrete square-root oracle.  The planner cycles evaluated with it
never use its value. -/
def cSqrt : ℚ → ℚ := fun _ => 0

/-- A concrete square-root oracle for the turn limiter: it agrees with the
true square root at `2.89 = 1.7 ^ 2`, the only argument at which the
evaluations below apply it. -/
def cSqrt7 : ℚ → ℚ := fun x => if x = 289/100 then 17/10 else 0

/-- A benign baseline input snapshot: disengaged, no pedals, no leads, no
model, map scraping off. -/
def cInp0 : Inputs where
  vEgo := 5
  aEgo := -1
  brakePressed := false
  gasPressed := false
  steeringAngleDeg := 0
  leftBlinker := false
  rightBlinker := false
  longControlState := .off
  vCruiseCS := 36
  vSetDis := 0
  forceDecel := false
  lead1 := cLead
  lead2 := cLead
  mpc1 := cMpcOff
  mpc2 := cMpcOff
  mpcModel := cModelOff
  modelLongEnabled := false
  opkrMapEnable := false
  limitCamSpeed := none
  limitCamDist := none
  fcwRaw := false

/-- Brake pressed while the long-control state is still `pid`, with the
first lead solver tracking a lead slower than ego. -/
def cInpC1 : Inputs :=
  { cInp0 with brakePressed := true, longControlState := .pid,
               mpc1 := ⟨1, -1, 1, true, false⟩ }

/-- Brake pressed while disengaged (long-control state `off`). -/
def cInpC1b : Inputs := { cInp0 with brakePressed := true }

/-- An engaged (pid) cycle with no pedals. -/
def cInpEng : Inputs := { cInp0 with longControlState := .pid }

/-- The spec's arbitration example: lead1 at 7 and lead2 at 12 both
tracked, model solver valid but model planning disabled. -/
def cInpC2 : Inputs :=
  { cInp0 with mpc1 := ⟨7, -(1/2), 8, true, false⟩,
               mpc2 := ⟨12, 0, 13, true, false⟩,
               mpcModel := ⟨true, 3, 0, 4⟩ }

/-- A planner state whose cruise candidate is at speed 10. -/
def cSC2 : PlannerState := { initState 0 with v_cruise := 10, a_cruise := 1 }

/-- A constant-velocity 33-sample model velocity trajectory. -/
def cVel33 : List ℚ := List.replicate 33 7

/-- A 33-sample model position trajectory. -/
def cPos33 : List ℚ := List.replicate 33 1

end Fixtures

set_option maxRecDepth 10000 in
unseal Rat.add Rat.sub Rat.mul Rat.inv Rat.ofScientific in
/-- The resampling index table evaluates to the ten nearest-timestamp
indices. -/
theorem model_t_idx_eval : model_t_idx = [0, 10, 14, 18, 20, 23, 25, 27, 29, 30] := by
  decide

/-- C5: for every alive 33-sample model trajectory, the adapter's
accelerations at interior resampled indices 1..8 are the central
differences `(v[i+1] - v[i-1]) / 2` of the resampled speeds, the endpoints
are extrapolated as `a[0] = a[1] - (a[2] - a[1])` and
`a[9] = a[8] - (a[7] - a[8])`, and a constant-velocity trajectory yields
ten zero accelerations. -/
theorem convert_data_central_difference (posX velX : List ℚ)
    (hp : posX.length = 33) (hv : velX.length = 33) :
    (∀ i, 1 ≤ i → i ≤ 8 →
      (convert_data true posX velX).2.2.getD i 0 =
        ((convert_data true posX velX).2.1.getD (i + 1) 0 -
          (convert_data true posX velX).2.1.getD (i - 1) 0) / 2)
    ∧ (convert_data true posX velX).2.2.getD 0 0 =
        (convert_data true posX velX).2.2.getD 1 0 -
          ((convert_data true posX velX).2.2.getD 2 0 -
            (convert_data true posX velX).2.2.getD 1 0)
    ∧ (convert_data true posX velX).2.2.getD 9 0 =
        (convert_data true posX velX).2.2.getD 8 0 -
          ((convert_data true posX velX).2.2.getD 7 0 -
            (convert_data true posX velX).2.2.getD 8 0)
    ∧ ∀ c, (∀ x ∈ velX, x = c) →
        ∀ a ∈ (convert_data true posX velX).2.2, a = 0 := by
  have hidx := model_t_idx_eval
  have hne : (posX.length == 0) = false := by simp [hp]
  refine ⟨?_, ?_, ?_, ?_⟩
  · intro i h1 h8
    interval_cases i <;>
      simp [convert_data, hidx, hne, mpc_t, List.range_succ, List.getD]
  · simp [convert_data, hidx, hne, mpc_t, List.range_succ, List.getD]
  · simp [convert_data, hidx, hne, mpc_t, List.range_succ, List.getD]
  · intro c hc a ha
    have hg : ∀ t : ℕ, t < 33 → (velX[t]?.getD 0) = c := by
      intro t ht
      have hsome : velX[t]? = some (velX.get ⟨t, by omega⟩) :=
        List.getElem?_eq_getElem (by omega)
      rw [hsome, Option.getD_some]
      exact hc _ (List.getElem_mem _)
    simp [convert_data, hidx, hne, mpc_t, List.range_succ, List.getD] at ha
    rcases ha with h | h | h | h | h | h | h | h | h | h <;>
      simp only [hg 0 (by norm_num), hg 10 (by norm_num), hg 14 (by norm_num),
        hg 18 (by norm_num), hg 20 (by norm_num), hg 23 (by norm_num),
        hg 25 (by norm_num), hg 27 (by norm_num), hg 29 (by norm_num),
        hg 30 (by norm_num)] at h <;> rw [h] <;> ring

/-- C5 witness: the theorem applied to a concrete constant-velocity
33-sample trajectory. -/
theorem convert_data_central_difference_witness :
    (∀ i, 1 ≤ i → i ≤ 8 →
      (convert_data true cPos33 cVel33).2.2.getD i 0 =
        ((convert_data true cPos33 cVel33).2.1.getD (i + 1) 0 -
          (convert_data true cPos33 cVel33).2.1.getD (i - 1) 0) / 2)
    ∧ (convert_data true cPos33 cVel33).2.2.getD 0 0 =
        (convert_data true cPos33 cVel33).2.2.getD 1 0 -
          ((convert_data true cPos33 cVel33).2.2.getD 2 0 -
            (convert_data true cPos33 cVel33).2.2.getD 1 0)
    ∧ (convert_data true cPos33 cVel33).2.2.getD 9 0 =
        (convert_data true cPos33 cVel33).2.2.getD 8 0 -
          ((convert_data true cPos33 cVel33).2.2.getD 7 0 -
            (convert_data true cPos33 cVel33).2.2.getD 8 0)
    ∧ ∀ c, (∀ x ∈ cVel33, x = c) →
        ∀ a ∈ (convert_data true cPos33 cVel33).2.2, a = 0 :=
  convert_data_central_difference cPos33 cVel33 (by decide) (by decide)

/-- C6: the adapter returns three empty arrays when the trajectory oracle
is stale or has no position samples, and three arrays of exactly ten
elements on an alive, contract-conforming (33-sample) trajectory. -/
theorem convert_data_lengths (alive : Bool) (posX velX : List ℚ) :
    ((alive = false ∨ posX = []) → convert_data alive posX velX = ([], [], []))
    ∧ (alive = true → posX.length = 33 → velX.length = 33 →
        (convert_data alive posX velX).1.length = 10
        ∧ (convert_data alive posX velX).2.1.length = 10
        ∧ (convert_data alive posX velX).2.2.length = 10) := by
  constructor
  · rintro (h | h) <;> subst h <;> simp [convert_data]
  · intro ha hp hv
    subst ha
    have hne : (posX.length == 0) = false := by simp [hp]
    refine ⟨?_, ?_, ?_⟩ <;>
      simp [convert_data, hne, model_t_idx_eval, mpc_t, List.range_succ]

/-- C6 witness: the theorem applied to an absent trajectory and to a
concrete 33-sample trajectory. -/
theorem convert_data_lengths_witness :
    ((false = false ∨ ([] : List ℚ) = []) →
        convert_data false [] cVel33 = ([], [], []))
    ∧ (false = true → ([] : List ℚ).length = 33 → cVel33.length = 33 →
        (convert_data false [] cVel33).1.length = 10
        ∧ (convert_data false [] cVel33).2.1.length = 10
        ∧ (convert_data false [] cVel33).2.2.length = 10) :=
  convert_data_lengths false [] cVel33

/-- C7 (amended): the turn limiter passes `a_min` through unchanged; its
upper bound is nonnegative whenever the incoming `a_max` is nonnegative
(the square root of the clamped quantity being nonnegative); and at zero
steering angle the upper bound is `min(a_max, a_total_max(v_ego))` — which
is `a_max` unchanged exactly when `a_max` does not exceed the interpolated
total-acceleration limit, but not in general. -/
theorem limit_accel_in_turns_amended (sqrtFn : ℚ → ℚ) (v_ego angle amin amax : ℚ)
    (CP : CarParams) :
    (limit_accel_in_turns sqrtFn v_ego angle (amin, amax) CP).1 = amin
    ∧ (0 ≤ amax →
        0 ≤ sqrtFn (max ((interp v_ego A_TOTAL_MAX_BP A_TOTAL_MAX_V) ^ 2 -
              (v_ego ^ 2 * angle * DEG_TO_RAD / (CP.steerRatio * CP.wheelbase)) ^ 2) 0) →
        0 ≤ (limit_accel_in_turns sqrtFn v_ego angle (amin, amax) CP).2)
    ∧ (angle = 0 →
        sqrtFn ((interp v_ego A_TOTAL_MAX_BP A_TOTAL_MAX_V) ^ 2) =
          interp v_ego A_TOTAL_MAX_BP A_TOTAL_MAX_V →
        (limit_accel_in_turns sqrtFn v_ego angle (amin, amax) CP).2 =
          min amax (interp v_ego A_TOTAL_MAX_BP A_TOTAL_MAX_V)) := by
  refine ⟨rfl, ?_, ?_⟩
  · intro h1 h2
    exact le_min h1 h2
  · intro h0 hsq
    subst h0
    simp only [limit_accel_in_turns]
    rw [show v_ego ^ 2 * 0 * DEG_TO_RAD / (CP.steerRatio * CP.wheelbase) = 0 by ring]
    rw [show ((0 : ℚ)) ^ 2 = 0 by ring, sub_zero,
      max_eq_left (sq_nonneg (interp v_ego A_TOTAL_MAX_BP A_TOTAL_MAX_V)), hsq]

/-- C7 witness: the amended theorem applied at `v_ego = 0`, zero steering
angle and bounds `(-3, 1/2)`, every square-root hypothesis discharged at
the concrete point `2.89 = 1.7 ^ 2`. -/
theorem limit_accel_in_turns_amended_witness :
    (limit_accel_in_turns cSqrt7 0 0 (-3, 1/2) cCP).1 = -3
    ∧ ((0 : ℚ) ≤ 1/2 →
        0 ≤ cSqrt7 (max ((interp 0 A_TOTAL_MAX_BP A_TOTAL_MAX_V) ^ 2 -
              ((0 : ℚ) ^ 2 * 0 * DEG_TO_RAD / (cCP.steerRatio * cCP.wheelbase)) ^ 2) 0) →
        0 ≤ (limit_accel_in_turns cSqrt7 0 0 (-3, 1/2) cCP).2)
    ∧ ((0 : ℚ) = 0 →
        cSqrt7 ((interp 0 A_TOTAL_MAX_BP A_TOTAL_MAX_V) ^ 2) =
          interp 0 A_TOTAL_MAX_BP A_TOTAL_MAX_V →
        (limit_accel_in_turns cSqrt7 0 0 (-3, 1/2) cCP).2 =
          min (1/2) (interp 0 A_TOTAL_MAX_BP A_TOTAL_MAX_V)) :=
  limit_accel_in_turns_amended cSqrt7 0 0 (-3) (1/2) cCP

set_option maxRecDepth 10000 in
unseal Rat.add Rat.sub Rat.mul Rat.inv Rat.ofScientific in
/-- C7 counterexample: the claim as stated is false.  At zero steering
angle with `a_max = 5` the returned upper bound is `1.7`, not the input
`a_max`; and with `a_max = -1` the returned upper bound is negative.
`cSqrt7` agrees with the true square root at `2.89`, the only argument at
which these evaluations apply it (`1.7 ^ 2 = 2.89` exactly). -/
theorem limit_accel_in_turns_claim_false :
    (limit_accel_in_turns cSqrt7 0 0 (-3, 5) cCP).2 ≠ 5
    ∧ (limit_accel_in_turns cSqrt7 0 0 (-3, -1) cCP).2 < 0 := by
  decide

/-- `choose_solution` never writes the warm-start speed. -/
lemma choose_solution_v_acc_start (s : PlannerState) (inp : Inputs) (sp : ℚ)
    (e me : Bool) : (choose_solution s inp sp e me).v_acc_start = s.v_acc_start := by
  simp only [choose_solution]
  split_ifs <;> rfl

/-- `choose_solution` never writes the warm-start acceleration. -/
lemma choose_solution_a_acc_start (s : PlannerState) (inp : Inputs) (sp : ℚ)
    (e me : Bool) : (choose_solution s inp sp e me).a_acc_start = s.a_acc_start := by
  simp only [choose_solution]
  split_ifs <;> rfl

/-- Every cycle clears the first-loop flag. -/
lemma update_first_loop (smoother : SpeedSmoother) (sqrtFn : ℚ → ℚ)
    (s : PlannerState) (CP : CarParams) (inp : Inputs) :
    (update smoother sqrtFn s CP inp).first_loop = false := rfl

/-- C8: the published collision warning is exactly the FCW checker's
result AND NOT the brake-pedal flag, both in the planner state and in the
published message; in particular it is false whenever the brake is
pressed. -/
theorem fcw_gating (smoother : SpeedSmoother) (sqrtFn : ℚ → ℚ)
    (s : PlannerState) (CP : CarParams) (inp : Inputs) :
    (update smoother sqrtFn s CP inp).fcw = (inp.fcwRaw && !inp.brakePressed)
    ∧ ∀ (l1 l2 : LeadState) (pls : Bool),
        (publish (update smoother sqrtFn s CP inp) l1 l2 pls).1.fcw =
          (inp.fcwRaw && !inp.brakePressed) :=
  ⟨rfl, fun _ _ _ => rfl⟩

/-- C9: the `forceDecel` flag is a defined no-op — two cycles whose input
snapshots differ only in it produce identical planner states and identical
published outputs. -/
theorem forceDecel_noninterference (smoother : SpeedSmoother) (sqrtFn : ℚ → ℚ)
    (s : PlannerState) (CP : CarParams) (inp : Inputs) (b₁ b₂ : Bool) :
    update smoother sqrtFn s CP { inp with forceDecel := b₁ } =
      update smoother sqrtFn s CP { inp with forceDecel := b₂ }
    ∧ ∀ (l1 l2 : LeadState) (pls : Bool),
        publish (update smoother sqrtFn s CP { inp with forceDecel := b₁ }) l1 l2 pls =
          publish (update smoother sqrtFn s CP { inp with forceDecel := b₂ }) l1 l2 pls := by
  have h : update smoother sqrtFn s CP { inp with forceDecel := b₁ } =
      update smoother sqrtFn s CP { inp with forceDecel := b₂ } := by
    cases inp
    simp [update, choose_solution, solutionsTail, enabledOf, Bool.and_false]
  exact ⟨h, fun l1 l2 pls => by rw [h]⟩

/-- C10: on a disabled cycle `choose_solution` only recomputes the future
speed (as the minimum of the two lead futures and the setpoint) and leaves
`v_acc`, `a_acc` and the plan-source label untouched; the label starts out
as `cruise` at construction; a disabled full cycle carries the stale label
through; and `publish` passes the label through unchanged. -/
theorem disabled_cycle_frame :
    (∀ (s : PlannerState) (inp : Inputs) (sp : ℚ) (me : Bool),
      (choose_solution s inp sp false me).v_acc = s.v_acc
      ∧ (choose_solution s inp sp false me).a_acc = s.a_acc
      ∧ (choose_solution s inp sp false me).longitudinalPlanSource =
          s.longitudinalPlanSource
      ∧ (choose_solution s inp sp false me).v_acc_future =
          listMin [inp.mpc1.v_mpc_future, inp.mpc2.v_mpc_future, sp])
    ∧ (∀ off : ℤ, (initState off).longitudinalPlanSource = .cruise)
    ∧ (∀ (smoother : SpeedSmoother) (sqrtFn : ℚ → ℚ) (s : PlannerState)
        (CP : CarParams) (inp : Inputs), enabledOf inp = false →
        (update smoother sqrtFn s CP inp).longitudinalPlanSource =
          s.longitudinalPlanSource)
    ∧ (∀ (s : PlannerState) (l1 l2 : LeadState) (pls : Bool),
        (publish s l1 l2 pls).1.longitudinalPlanSource =
          s.longitudinalPlanSource) := by
  refine ⟨fun s inp sp me => ⟨rfl, rfl, rfl, rfl⟩, fun off => rfl, ?_,
    fun s l1 l2 pls => rfl⟩
  intro smoother sqrtFn s CP inp h
  simp only [update, h, Bool.false_and, Bool.false_eq_true, if_false,
    choose_solution, reduceIte]

/-- C10 witness: the frame property applied to a concrete disabled cycle. -/
theorem disabled_cycle_frame_witness :
    (update cSmoother cSqrt cSC2 cCP cInp0).longitudinalPlanSource =
      cSC2.longitudinalPlanSource :=
  disabled_cycle_frame.2.2.1 cSmoother cSqrt cSC2 cCP cInp0 rfl

/-- C4: warm-start continuity — on an engaged cycle with no pedal pressed
that follows any previous cycle, the warm-start pair the planner reads is
exactly the interpolated pair the previous cycle stored. -/
theorem warm_start_continuity (smoother : SpeedSmoother) (sqrtFn : ℚ → ℚ)
    (s : PlannerState) (CP : CarParams) (inpN inpM : Inputs)
    (h1 : enabledOf inpM = true) (h2 : inpM.brakePressed = false)
    (h3 : inpM.gasPressed = false) :
    (update smoother sqrtFn (update smoother sqrtFn s CP inpN) CP inpM).v_acc_start =
      (update smoother sqrtFn s CP inpN).v_acc_next
    ∧ (update smoother sqrtFn (update smoother sqrtFn s CP inpN) CP inpM).a_acc_start =
      (update smoother sqrtFn s CP inpN).a_acc_next := by
  generalize hs1 : update smoother sqrtFn s CP inpN = s1
  have hfl : s1.first_loop = false := by rw [← hs1]; rfl
  constructor <;>
    simp only [update, choose_solution_v_acc_start, choose_solution_a_acc_start,
      h1, h2, h3, hfl, Bool.not_false, Bool.true_and, Bool.and_true, if_true,
      Bool.and_self, reduceIte]

/-- C4 witness: continuity across a concrete disabled cycle followed by a
concrete engaged cycle. -/
theorem warm_start_continuity_witness :
    (update cSmoother cSqrt (update cSmoother cSqrt (initState 0) cCP cInp0) cCP
        cInpEng).v_acc_start =
      (update cSmoother cSqrt (initState 0) cCP cInp0).v_acc_next
    ∧ (update cSmoother cSqrt (update cSmoother cSqrt (initState 0) cCP cInp0) cCP
        cInpEng).a_acc_start =
      (update cSmoother cSqrt (initState 0) cCP cInp0).a_acc_next :=
  warm_start_continuity cSmoother cSqrt (initState 0) cCP cInp0 cInpEng rfl rfl rfl

/-- C1 (amended): when the brake is pressed and the long-control state is
`off` (so the planner is neither enabled nor in the starting sub-state),
the cycle snaps `v_acc` to the current ego speed and `a_acc` to
`min(ego accel, 0)`, leaves the plan-source label untouched (no candidate
fusion), and publishes those values.  When the brake is pressed while the
long-control state is still `pid` or `stopping`, `choose_solution` runs
candidate fusion anyway and can override the snapped values (see the
counterexample). -/
theorem override_amended (smoother : SpeedSmoother) (sqrtFn : ℚ → ℚ)
    (s : PlannerState) (CP : CarParams) (inp : Inputs)
    (hb : inp.brakePressed = true) (hs : inp.longControlState = .off) :
    (update smoother sqrtFn s CP inp).v_acc = inp.vEgo
    ∧ (update smoother sqrtFn s CP inp).a_acc = min inp.aEgo 0
    ∧ (update smoother sqrtFn s CP inp).longitudinalPlanSource =
        s.longitudinalPlanSource
    ∧ ∀ (l1 l2 : LeadState) (pls : Bool),
        (publish (update smoother sqrtFn s CP inp) l1 l2 pls).1.vTarget = inp.vEgo
        ∧ (publish (update smoother sqrtFn s CP inp) l1 l2 pls).1.aTarget =
            min inp.aEgo 0 := by
  have he : enabledOf inp = false := by rw [enabledOf, hs]; rfl
  have hst : decide (inp.longControlState = LongCtrlState.starting) = false := by
    rw [hs]; rfl
  refine ⟨?_, ?_, ?_, fun l1 l2 pls => ⟨?_, ?_⟩⟩ <;>
    simp only [update, choose_solution, publish, he, hst, hb,
      Bool.false_and, Bool.false_eq_true, if_false, reduceIte]

/-- C1 witness: the amended override property at a concrete braked,
disengaged cycle. -/
theorem override_amended_witness :
    (update cSmoother cSqrt (initState 0) cCP cInpC1b).v_acc = cInpC1b.vEgo
    ∧ (update cSmoother cSqrt (initState 0) cCP cInpC1b).a_acc = min cInpC1b.aEgo 0
    ∧ (update cSmoother cSqrt (initState 0) cCP cInpC1b).longitudinalPlanSource =
        (initState 0).longitudinalPlanSource
    ∧ ∀ (l1 l2 : LeadState) (pls : Bool),
        (publish (update cSmoother cSqrt (initState 0) cCP cInpC1b) l1 l2 pls).1.vTarget =
          cInpC1b.vEgo
        ∧ (publish (update cSmoother cSqrt (initState 0) cCP cInpC1b) l1 l2 pls).1.aTarget =
            min cInpC1b.aEgo 0 :=
  override_amended cSmoother cSqrt (initState 0) cCP cInpC1b rfl rfl

set_option maxRecDepth 10000 in
unseal Rat.add Rat.sub Rat.mul Rat.inv Rat.ofScientific in
/-- C1 counterexample: the claim as stated is false.  With the brake
pressed but the long-control state still `pid`, the first lead solver
tracking a lead at speed 1 overrides the snapped ego speed 5: candidate
fusion still runs on the override path. -/
theorem override_claim_false :
    (update cSmoother cSqrt (initState 0) cCP cInpC1).v_acc ≠ cInpC1.vEgo := by
  decide

/-- C3: the published future speed is the minimum of the two lead solvers'
future estimates and the cruise setpoint, with the model solver's future
estimate additionally included only when the model candidate is eligible
(and the cycle enabled); hence it never exceeds
`min(setpoint, lead1 future, lead2 future)`, with equality whenever the
model candidate is ineligible. -/
theorem v_future_min (s : PlannerState) (inp : Inputs) (sp : ℚ) (e me : Bool) :
    ((choose_solution s inp sp e me).v_acc_future =
        min (min inp.mpc1.v_mpc_future inp.mpc2.v_mpc_future) sp
      ∨ ((inp.mpcModel.valid && me) = true
          ∧ (choose_solution s inp sp e me).v_acc_future =
              min (min (min inp.mpc1.v_mpc_future inp.mpc2.v_mpc_future) sp)
                inp.mpcModel.v_mpc_future))
    ∧ (choose_solution s inp sp e me).v_acc_future ≤
        min sp (min inp.mpc1.v_mpc_future inp.mpc2.v_mpc_future)
    ∧ ((inp.mpcModel.valid && me) = false →
        (choose_solution s inp sp e me).v_acc_future =
          min (min inp.mpc1.v_mpc_future inp.mpc2.v_mpc_future) sp) := by
  have hmin : min (min inp.mpc1.v_mpc_future inp.mpc2.v_mpc_future) sp ≤
      min sp (min inp.mpc1.v_mpc_future inp.mpc2.v_mpc_future) :=
    le_of_eq (min_comm _ _)
  have hproj : ∀ e' : Bool, (choose_solution s inp sp e' me).v_acc_future =
      listMin ([inp.mpc1.v_mpc_future, inp.mpc2.v_mpc_future, sp] ++
        (if e' && (inp.mpcModel.valid && me) then [inp.mpcModel.v_mpc_future]
         else [])) := fun _ => rfl
  cases he : e
  · exact ⟨Or.inl rfl, hmin, fun _ => rfl⟩
  · cases hvm : (inp.mpcModel.valid && me)
    · have hF : (choose_solution s inp sp true me).v_acc_future =
          min (min inp.mpc1.v_mpc_future inp.mpc2.v_mpc_future) sp := by
        rw [hproj true, Bool.true_and, hvm]
        rfl
      exact ⟨Or.inl hF, hF ▸ hmin, fun _ => hF⟩
    · have hF : (choose_solution s inp sp true me).v_acc_future =
          min (min (min inp.mpc1.v_mpc_future inp.mpc2.v_mpc_future) sp)
            inp.mpcModel.v_mpc_future := by
        rw [hproj true, Bool.true_and, hvm]
        rfl
      exact ⟨Or.inr ⟨rfl, hF⟩, hF ▸ (min_le_left _ _).trans hmin,
        fun h => nomatch h⟩

/-- C3 witness: the future-speed property at a concrete enabled cycle with
an ineligible model candidate. -/
theorem v_future_min_witness :
    ((choose_solution cSC2 cInpC2 10 true false).v_acc_future =
        min (min cInpC2.mpc1.v_mpc_future cInpC2.mpc2.v_mpc_future) 10
      ∨ ((cInpC2.mpcModel.valid && false) = true
          ∧ (choose_solution cSC2 cInpC2 10 true false).v_acc_future =
              min (min (min cInpC2.mpc1.v_mpc_future cInpC2.mpc2.v_mpc_future) 10)
                cInpC2.mpcModel.v_mpc_future))
    ∧ (choose_solution cSC2 cInpC2 10 true false).v_acc_future ≤
        min 10 (min cInpC2.mpc1.v_mpc_future cInpC2.mpc2.v_mpc_future)
    ∧ ((cInpC2.mpcModel.valid && false) = false →
        (choose_solution cSC2 cInpC2 10 true false).v_acc_future =
          min (min cInpC2.mpc1.v_mpc_future cInpC2.mpc2.v_mpc_future) 10) :=
  v_future_min cSC2 cInpC2 10 true false

/-- `minBy` returns the head or a member of the tail. -/
lemma minBy_mem (hd : PlanSource × ℚ) (tl : List (PlanSource × ℚ)) :
    minBy hd tl = hd ∨ minBy hd tl ∈ tl := by
  induction tl generalizing hd with
  | nil => exact Or.inl rfl
  | cons x xs ih =>
    have hstep : minBy hd (x :: xs) = minBy (if x.2 < hd.2 then x else hd) xs := rfl
    rw [hstep]
    rcases ih (if x.2 < hd.2 then x else hd) with h | h
    · rw [h]
      split_ifs
      · exact Or.inr (List.mem_cons_self _ _)
      · exact Or.inl rfl
    · exact Or.inr (List.mem_cons_of_mem _ h)

/-- The value kept by `minBy` is a lower bound of the head's and every
tail entry's value. -/
lemma minBy_le (hd : PlanSource × ℚ) (tl : List (PlanSource × ℚ)) :
    (minBy hd tl).2 ≤ hd.2 ∧ ∀ x ∈ tl, (minBy hd tl).2 ≤ x.2 := by
  induction tl generalizing hd with
  | nil => exact ⟨le_refl _, by simp⟩
  | cons x xs ih =>
    have hstep : minBy hd (x :: xs) = minBy (if x.2 < hd.2 then x else hd) xs := rfl
    obtain ⟨ih1, ih2⟩ := ih (if x.2 < hd.2 then x else hd)
    have hble : (if x.2 < hd.2 then x else hd).2 ≤ hd.2 := by
      split_ifs with h
      · exact le_of_lt h
      · exact le_refl _
    have hblex : (if x.2 < hd.2 then x else hd).2 ≤ x.2 := by
      split_ifs with h
      · exact le_refl _
      · exact le_of_not_lt h
    refine ⟨?_, ?_⟩
    · rw [hstep]
      exact ih1.trans hble
    · intro y hy
      rw [hstep]
      rcases List.mem_cons.mp hy with rfl | hy
      · exact ih1.trans hblex
      · exact ih2 y hy

set_option maxHeartbeats 1000000 in
/-- C2: on an enabled cycle the arbiter picks an eligible candidate whose
current target speed is minimal among all eligible candidates, adopts its
(v, a) as `v_acc`/`a_acc`, publishes its identifier, and breaks speed ties
by the fixed priority order cruise, lead1, lead2, model. -/
theorem selection_rule (s : PlannerState) (inp : Inputs) (sp : ℚ) (me : Bool) :
    eligible inp me (choose_solution s inp sp true me).longitudinalPlanSource = true
    ∧ (choose_solution s inp sp true me).v_acc =
        candV s inp (choose_solution s inp sp true me).longitudinalPlanSource
    ∧ (choose_solution s inp sp true me).a_acc =
        candA s inp (choose_solution s inp sp true me).longitudinalPlanSource
    ∧ (∀ src, eligible inp me src = true →
        (choose_solution s inp sp true me).v_acc ≤ candV s inp src)
    ∧ (∀ src, eligible inp me src = true →
        candV s inp src = (choose_solution s inp sp true me).v_acc →
        prio (choose_solution s inp sp true me).longitudinalPlanSource ≤ prio src) := by
  have hfirst : ∀ p ∈ ((PlanSource.cruise, s.v_cruise) :: solutionsTail inp me),
      p.2 = (minBy (.cruise, s.v_cruise) (solutionsTail inp me)).2 →
      prio (minBy (.cruise, s.v_cruise) (solutionsTail inp me)).1 ≤ prio p.1 := by
    cases h1 : inp.mpc1.prev_lead_status <;>
      cases h2 : inp.mpc2.prev_lead_status <;>
        cases h3 : (inp.mpcModel.valid && me) <;>
          simp only [solutionsTail, h1, h2, h3, List.append_nil, List.nil_append,
            List.cons_append, List.singleton_append, minBy, List.foldl, if_true,
            reduceIte] <;>
          intro p hp hpe <;>
          fin_cases hp <;>
            (try split_ifs at hpe ⊢) <;>
              simp_all [prio] <;>
                linarith
  have hsrc : (choose_solution s inp sp true me).longitudinalPlanSource =
      (minBy (.cruise, s.v_cruise) (solutionsTail inp me)).1 := by
    simp only [choose_solution]
    split_ifs <;> rfl
  have hva : (choose_solution s inp sp true me).v_acc =
        candV s inp (minBy (.cruise, s.v_cruise) (solutionsTail inp me)).1
      ∧ (choose_solution s inp sp true me).a_acc =
        candA s inp (minBy (.cruise, s.v_cruise) (solutionsTail inp me)).1 := by
    constructor <;>
      (simp only [choose_solution]
       generalize minBy (PlanSource.cruise, s.v_cruise) (solutionsTail inp me) = w
       obtain ⟨w1, w2⟩ := w
       cases w1 <;> simp [candV, candA])
  have hpair : ∀ p ∈ ((PlanSource.cruise, s.v_cruise) :: solutionsTail inp me),
      eligible inp me p.1 = true ∧ p.2 = candV s inp p.1 := by
    intro p hp
    rcases List.mem_cons.mp hp with rfl | hp
    · exact ⟨rfl, rfl⟩
    · simp only [solutionsTail, List.mem_append] at hp
      rcases hp with (hp | hp) | hp <;> split_ifs at hp with h <;>
        simp only [List.mem_singleton, List.not_mem_nil] at hp <;> subst hp <;>
          exact ⟨by simp [eligible, h], rfl⟩
  have hexists : ∀ src, eligible inp me src = true →
      ∃ p, p ∈ ((PlanSource.cruise, s.v_cruise) :: solutionsTail inp me)
        ∧ p.1 = src ∧ p.2 = candV s inp src := by
    intro src hsE
    cases src
    · exact ⟨(.cruise, s.v_cruise), List.mem_cons_self _ _, rfl, rfl⟩
    · have h : inp.mpc1.prev_lead_status = true := by simpa [eligible] using hsE
      exact ⟨(.mpc1, inp.mpc1.v_mpc), by simp [solutionsTail, h], rfl, rfl⟩
    · have h : inp.mpc2.prev_lead_status = true := by simpa [eligible] using hsE
      exact ⟨(.mpc2, inp.mpc2.v_mpc), by simp [solutionsTail, h], rfl, rfl⟩
    · have h : (inp.mpcModel.valid && me) = true := by simpa [eligible] using hsE
      exact ⟨(.model, inp.mpcModel.v_mpc), by simp [solutionsTail, h], rfl, rfl⟩
  have hmem := minBy_mem (.cruise, s.v_cruise) (solutionsTail inp me)
  have hle := minBy_le (.cruise, s.v_cruise) (solutionsTail inp me)
  have hw_pair : eligible inp me
        (minBy (.cruise, s.v_cruise) (solutionsTail inp me)).1 = true
      ∧ (minBy (.cruise, s.v_cruise) (solutionsTail inp me)).2 =
        candV s inp (minBy (.cruise, s.v_cruise) (solutionsTail inp me)).1 := by
    rcases hmem with h | h
    · rw [h]
      exact ⟨rfl, rfl⟩
    · exact hpair _ (List.mem_cons_of_mem _ h)
  obtain ⟨hv, ha⟩ := hva
  have hcv : (choose_solution s inp sp true me).v_acc =
      (minBy (.cruise, s.v_cruise) (solutionsTail inp me)).2 := by
    rw [hv, ← hw_pair.2]
  refine ⟨?_, ?_, ?_, ?_, ?_⟩
  · rw [hsrc]
    exact hw_pair.1
  · rw [hsrc]
    exact hv
  · rw [hsrc]
    exact ha
  · intro src hsE
    obtain ⟨p, hpmem, hp1, hp2⟩ := hexists src hsE
    have hwle : (minBy (.cruise, s.v_cruise) (solutionsTail inp me)).2 ≤ p.2 := by
      rcases List.mem_cons.mp hpmem with rfl | hpm
      · exact hle.1
      · exact hle.2 p hpm
    rw [hcv, ← hp2]
    exact hwle
  · intro src hsE heq
    obtain ⟨p, hpmem, hp1, hp2⟩ := hexists src hsE
    have hp2w : p.2 = (minBy (.cruise, s.v_cruise) (solutionsTail inp me)).2 := by
      rw [hp2, heq, hcv]
    have hpr := hfirst p hpmem hp2w
    rw [hsrc, ← hp1]
    exact hpr

/-- C2 witness: the spec's arbitration example — cruise at 10, lead1 at 7,
lead2 at 12, model ineligible — selects lead1 with `v_acc = 7`, and the
selection-rule theorem instantiates there. -/
theorem selection_rule_witness :
    ((choose_solution cSC2 cInpC2 10 true false).longitudinalPlanSource = .mpc1
      ∧ (choose_solution cSC2 cInpC2 10 true false).v_acc = 7)
    ∧ (eligible cInpC2 false
          (choose_solution cSC2 cInpC2 10 true false).longitudinalPlanSource = true
      ∧ (choose_solution cSC2 cInpC2 10 true false).v_acc =
          candV cSC2 cInpC2 (choose_solution cSC2 cInpC2 10 true false).longitudinalPlanSource
      ∧ (choose_solution cSC2 cInpC2 10 true false).a_acc =
          candA cSC2 cInpC2 (choose_solution cSC2 cInpC2 10 true false).longitudinalPlanSource
      ∧ (∀ src, eligible cInpC2 false src = true →
          (choose_solution cSC2 cInpC2 10 true false).v_acc ≤ candV cSC2 cInpC2 src)
      ∧ (∀ src, eligible cInpC2 false src = true →
          candV cSC2 cInpC2 src = (choose_solution cSC2 cInpC2 10 true false).v_acc →
          prio (choose_solution cSC2 cInpC2 10 true false).longitudinalPlanSource ≤
            prio src)) :=
  ⟨by decide, selection_rule cSC2 cInpC2 10 false⟩

end LongitudinalPlanner
